import Mathlib

/-!
Verification of the todo-backend store and HTTP dispatcher
(`main.go`: `MockTodoService` and `todoHandler`).

Shallow embedding conventions:
- Go `int` is modelled as `Int` (the counter and ids stay far from the
  64-bit range in every reachable scenario considered here).
- A Go method returning `error` is modelled with `Except String`, where
  `Except.ok` stands for a `nil` error and `Except.error msg` for
  `fmt.Errorf(msg)`.
- `Save` takes its argument by pointer in Go and may write the assigned id
  into it; here it returns the (possibly updated) todo inside `Except.ok`.
- `http.Error(w, msg, code)` writes `msg ++ "\n"` as the body;
  `http.NotFound` is `http.Error(w, "404 page not found", 404)`.
- JSON decoding into a `Todo` is modelled by `PatchBody` (one `Option`
  per decodable field; `Id` carries the tag `json:"-"` and is never
  decoded) applied to the zero-valued struct, matching
  `json.NewDecoder(r.Body).Decode(&todo)` on a fresh `var todo Todo`.
- `addUrlToTodos` mutates the todos it is handed *in place*; since
  `Get`/`GetAll` return pointers into the backing slice and `Save`
  stores the handler's own `&todo` in the slice, the computed url is
  written back into the stored entry as a side effect of every
  successful single GET, POST, and PATCH (and into every entry on a
  list-all GET). The handler model applies this write-back to the
  store state: `List.map (attachUrl r)` for the list-all branch, and
  `setUrlAtId` (set the computed url on the aliased entry) for the
  single-item branches.
-/

/-- The `Todo` struct of `main.go`. Field `Id` has tag `json:"-"`. -/
structure Todo where
  Id : Int
  Title : String
  Completed : Bool
  Order : Int
  Url : String
  deriving DecidableEq

/-- The `MockTodoService` struct: an identity counter and the backing
slice (the mutex only serialises access and has no sequential effect). -/
structure MockTodoService where
  nextId : Int
  Todos : List Todo
  deriving DecidableEq

/-- `NewMockTodoService`: empty slice, counter starts at 1. -/
def NewMockTodoService : MockTodoService :=
  { nextId := 1, Todos := [] }

/-- `GetAll`: returns the backing slice and a `nil` error. -/
def MockTodoService.GetAll (t : MockTodoService) : List Todo × Except String Unit :=
  (t.Todos, Except.ok ())

/-- `Get(id)`: the first stored todo with that id, or `nil` (the error
result is always `nil` in this variant). -/
def MockTodoService.Get (t : MockTodoService) (id : Int) : Option Todo :=
  t.Todos.find? (fun x => x.Id = id)

/-- The update loop of `Save`: replace the first element whose `Id`
matches `todo.Id`; `none` when no element matches. -/
def saveUpdate (todo : Todo) : List Todo → Option (List Todo)
  | [] => none
  | x :: xs =>
    if x.Id = todo.Id then some (todo :: xs)
    else (saveUpdate todo xs).map (fun ys => x :: ys)

/-- `Save(todo)`: id 0 is a create (assign `nextId`, increment, append);
a non-zero id is an update of the first matching element, or the error
`"Not Found"` when no element matches. -/
def MockTodoService.Save (t : MockTodoService) (todo : Todo) :
    MockTodoService × Except String Todo :=
  if todo.Id = 0 then
    let todo' := { todo with Id := t.nextId }
    ({ nextId := t.nextId + 1, Todos := t.Todos ++ [todo'] }, Except.ok todo')
  else
    match saveUpdate todo t.Todos with
    | some l => ({ t with Todos := l }, Except.ok todo)
    | none => (t, Except.error "Not Found")

/-- `DeleteAll`: replace the slice with a fresh empty one; `nil` error. -/
def MockTodoService.DeleteAll (t : MockTodoService) : MockTodoService × Except String Unit :=
  ({ t with Todos := [] }, Except.ok ())

/-- The removal loop of `Delete`: drop the first element with the given
id (Go's `append(t.Todos[:i], t.Todos[i+1:]...)`), keep the rest. -/
def deleteFirst (id : Int) : List Todo → List Todo
  | [] => []
  | x :: xs => if x.Id = id then xs else x :: deleteFirst id xs

/-- `Delete(id)`: remove the first matching element; the error result is
`nil` whether or not a match existed. -/
def MockTodoService.Delete (t : MockTodoService) (id : Int) :
    MockTodoService × Except String Unit :=
  ({ t with Todos := deleteFirst id t.Todos }, Except.ok ())

/-! ### Reachable store states

A reachable state is the fold of a finite sequence of store mutations
over the fresh store. `runLog` additionally records, as ghost state, each
id handed out by the create path of `Save`. -/

/-- One store mutation. -/
inductive StoreOp where
  | save (todo : Todo)
  | delete (id : Int)
  | deleteAll
  deriving DecidableEq

/-- Apply one mutation to a store state. -/
def applyOp (s : MockTodoService) : StoreOp → MockTodoService
  | StoreOp.save todo => (s.Save todo).1
  | StoreOp.delete id => (s.Delete id).1
  | StoreOp.deleteAll => (s.DeleteAll).1

/-- The ids assigned by one operation: the create path of `Save` hands
out `s.nextId`, every other operation assigns nothing. -/
def opAssigned (s : MockTodoService) : StoreOp → List Int
  | StoreOp.save todo => if todo.Id = 0 then [s.nextId] else []
  | StoreOp.delete _ => []
  | StoreOp.deleteAll => []

/-- One step of the instrumented run: new state plus extended id log. -/
def stepLog (p : MockTodoService × List Int) (op : StoreOp) : MockTodoService × List Int :=
  (applyOp p.1 op, p.2 ++ opAssigned p.1 op)

/-- Run a sequence of operations from the fresh store, logging ids. -/
def runLog (ops : List StoreOp) : MockTodoService × List Int :=
  ops.foldl stepLog (NewMockTodoService, [])

/-- The store state reached by a sequence of operations. -/
def runOps (ops : List StoreOp) : MockTodoService :=
  (runLog ops).1

/-- All ids ever assigned during a run, in order of assignment. -/
def assignedIds (ops : List StoreOp) : List Int :=
  (runLog ops).2

/-! ### The HTTP dispatcher (`todoHandler`) -/

/-- The digit-accumulating loop of `strconv.Atoi`: `none` as soon as a
non-digit appears. -/
def digitsToNat : List Char → Nat → Option Nat
  | [], acc => some acc
  | c :: cs, acc =>
    if c.isDigit then digitsToNat cs (10 * acc + (c.toNat - 48)) else none

/-- `strconv.Atoi`: optional sign, then at least one digit, all digits.
(Range errors of the 64-bit `int` are not modelled; no claim concerns
inputs of that size.) -/
def atoi (s : String) : Option Int :=
  match s.toList with
  | [] => none
  | '-' :: cs =>
    match cs with
    | [] => none
    | _ => (digitsToNat cs 0).map (fun n => -(n : Int))
  | '+' :: cs =>
    match cs with
    | [] => none
    | _ => (digitsToNat cs 0).map (fun n => (n : Int))
  | cs => (digitsToNat cs 0).map (fun n => (n : Int))

/-- `strings.Split` on a one-character separator, by structural
recursion over the character list so that the kernel can evaluate it:
`splitOnChar sep cs` is the list of (possibly empty) groups of `cs`
between occurrences of `sep`. -/
def splitOnChar (sep : Char) : List Char → List (List Char)
  | [] => [[]]
  | c :: rest =>
    if c = sep then [] :: splitOnChar sep rest
    else
      match splitOnChar sep rest with
      | [] => [[c]]
      | g :: gs => (c :: g) :: gs

/-- The key extraction of `todoHandler`:
`parts := strings.Split(r.URL.Path, "/")`, and `key = parts[2]` when
`len(parts) > 2`, otherwise `""`. -/
def pathKey (p : String) : String :=
  String.mk ((splitOnChar '/' p.toList).getD 2 [])

/-- `strings.ToLower`, by structural recursion over the character list
so that the kernel can evaluate it (the only string it is applied to
here, `"Not Found"`, is plain ASCII, where Go's lowering agrees with
`Char.toLower` on each character). -/
def strToLower (s : String) : String :=
  String.mk (s.toList.map Char.toLower)

/-- Request methods dispatched by `todoHandler`; `other` is any verb
that falls to the `default` arm. -/
inductive HttpMethod where
  | GET
  | POST
  | PATCH
  | DELETE
  | other
  deriving DecidableEq

/-- Result of decoding the request body into a fresh `Todo`: one
`Option` per JSON-visible field (`Id` has tag `json:"-"` and can never
be set from the body). -/
structure PatchBody where
  title : Option String
  completed : Option Bool
  order : Option Int
  url : Option String
  deriving DecidableEq

/-- The zero value of the `Todo` struct (also `Todo{Completed: false}`). -/
def emptyTodo : Todo :=
  { Id := 0, Title := "", Completed := false, Order := 0, Url := "" }

/-- Decode semantics of `encoding/json`: a field present in the body
overwrites the struct field, an absent field leaves it untouched. -/
def decodeInto (base : Todo) (b : PatchBody) : Todo :=
  { base with
    Title := b.title.getD base.Title
    Completed := b.completed.getD base.Completed
    Order := b.order.getD base.Order
    Url := b.url.getD base.Url }

/-- An inbound request as `todoHandler` observes it: method, raw path,
the outcome of decoding the body, and the scheme/host data used by
`addUrlToTodos`. -/
structure HttpRequest where
  method : HttpMethod
  path : String
  body : Except String PatchBody
  host : String
  tls : Bool

/-- The url computed by `addUrlToTodos`:
`{scheme}://{host}/todos/{id}`. -/
def computeUrl (r : HttpRequest) (id : Int) : String :=
  (if r.tls then "https" else "http") ++ "://" ++ r.host ++ "/todos/" ++ toString id

/-- `addUrlToTodos` on one todo: store the computed url in `Url`. -/
def attachUrl (r : HttpRequest) (t : Todo) : Todo :=
  { t with Url := computeUrl r t.Id }

/-- The store effect of `addUrlToTodos` on a single todo reached
through a shared pointer: the first entry of the slice carrying the id
receives the computed url. This is exactly the aliased entry in each
use: `Get` returns the first entry carrying the id; the update path of
`Save` places `&todo` at the first index carrying `todo.Id` (the
entries before it kept their differing ids); and the create path
appends `&todo` with a counter id carried by no other entry in any
reachable state. -/
def setUrlAtId (r : HttpRequest) (id : Int) : List Todo → List Todo
  | [] => []
  | x :: xs =>
    if x.Id = id then attachUrl r x :: xs else x :: setUrlAtId r id xs

/-- What the handler writes back: `text` is the body of
`http.Error`/`http.NotFound` (message plus newline), `one`/`many` are
JSON-encoded todos, `empty` is no body. -/
inductive RespBody where
  | text (s : String)
  | one (t : Todo)
  | many (l : List Todo)
  | empty
  deriving DecidableEq

/-- Status code and body of a response. -/
structure HttpResult where
  status : Nat
  body : RespBody
  deriving DecidableEq

/-- The `GET` arm: no key lists all todos (the error branch of `GetAll`
is dead, the error is always `nil`), and `addUrlToTodos` writes the
computed url into every stored entry through the returned pointers;
with a key, a failed `Atoi` is a 400, a missing id a 404 via
`http.NotFound`, otherwise the todo with its computed url — which
`addUrlToTodos` also writes into the stored entry `Get` aliased. -/
def handleGET (s : MockTodoService) (r : HttpRequest) (key : String) :
    HttpResult × MockTodoService :=
  if key.length = 0 then
    (⟨200, RespBody.many ((s.GetAll).1.map (attachUrl r))⟩,
      { s with Todos := s.Todos.map (attachUrl r) })
  else
    match atoi key with
    | none => (⟨400, RespBody.text "Invalid Id\n"⟩, s)
    | some id =>
      match s.Get id with
      | none => (⟨404, RespBody.text "404 page not found\n"⟩, s)
      | some todo =>
        (⟨200, RespBody.one (attachUrl r todo)⟩,
          { s with Todos := setUrlAtId r id s.Todos })

/-- The `POST` arm: a trailing key is a 405; a decode failure a 422;
otherwise decode into `Todo{Completed: false}`, save (always the create
path, the decoded id is 0), answer 201 with the created todo —
`addUrlToTodos(r, &todo)` also writes the computed url into the stored
entry `Save` appended, `&todo` itself. -/
def handlePOST (s : MockTodoService) (r : HttpRequest) (key : String) :
    HttpResult × MockTodoService :=
  if 0 < key.length then (⟨405, RespBody.text "Method not allowed\n"⟩, s)
  else
    match r.body with
    | Except.error e => (⟨422, RespBody.text (e ++ "\n")⟩, s)
    | Except.ok b =>
      match s.Save (decodeInto emptyTodo b) with
      | (s1, Except.ok td) =>
        (⟨201, RespBody.one (attachUrl r td)⟩,
          { s1 with Todos := setUrlAtId r td.Id s1.Todos })
      | (s1, Except.error e) => (⟨500, RespBody.text (e ++ "\n")⟩, s1)

/-- The body of a `PATCH`: `var todo Todo` decoded from the body, then
`todo.Id = id` (the path id overrides; `Id` itself is never decoded). -/
def decodeTodoWithId (b : PatchBody) (id : Int) : Todo :=
  { decodeInto emptyTodo b with Id := id }

/-- The `PATCH` arm: the key must parse (400 otherwise), the body must
decode (422 otherwise); the decoded todo's id is forced to the path id
and saved; the error `"Not Found"` (compared lowercased) becomes a 404
via `http.NotFound`; success answers 200 with the saved todo, and
`addUrlToTodos(r, &todo)` also writes the computed url into the stored
entry `Save` placed, `&todo` itself. -/
def handlePATCH (s : MockTodoService) (r : HttpRequest) (key : String) :
    HttpResult × MockTodoService :=
  match atoi key with
  | none => (⟨400, RespBody.text "Invalid Id\n"⟩, s)
  | some id =>
    match r.body with
    | Except.error e => (⟨422, RespBody.text (e ++ "\n")⟩, s)
    | Except.ok b =>
      match s.Save (decodeTodoWithId b id) with
      | (s1, Except.ok td) =>
        (⟨200, RespBody.one (attachUrl r td)⟩,
          { s1 with Todos := setUrlAtId r td.Id s1.Todos })
      | (s1, Except.error e) =>
        if strToLower e = "not found" then (⟨404, RespBody.text "404 page not found\n"⟩, s1)
        else (⟨500, RespBody.text (e ++ "\n")⟩, s1)

/-- The `DELETE` arm: no key clears the collection (its error ignored);
with a key, a failed `Atoi` is a 400, otherwise `Delete` runs (its error
branch is dead, it always returns `nil`) and the handler answers 204
with no body. -/
def handleDELETE (s : MockTodoService) (_r : HttpRequest) (key : String) :
    HttpResult × MockTodoService :=
  if key.length = 0 then
    (⟨204, RespBody.empty⟩, (s.DeleteAll).1)
  else
    match atoi key with
    | none => (⟨400, RespBody.text "Invalid Id\n"⟩, s)
    | some id =>
      match s.Delete id with
      | (s1, Except.ok _) => (⟨204, RespBody.empty⟩, s1)
      | (s1, Except.error e) => (⟨500, RespBody.text (e ++ "\n")⟩, s1)

/-- `todoHandler`: extract the key from the path, dispatch on the verb;
any other verb is a 405. -/
def todoHandler (s : MockTodoService) (r : HttpRequest) :
    HttpResult × MockTodoService :=
  let key := pathKey r.path
  match r.method with
  | HttpMethod.GET => handleGET s r key
  | HttpMethod.POST => handlePOST s r key
  | HttpMethod.PATCH => handlePATCH s r key
  | HttpMethod.DELETE => handleDELETE s r key
  | HttpMethod.other => (⟨405, RespBody.text "Method Not Allowed\n"⟩, s)

/-! ### List-level facts about the `Save` update loop and `Delete` -/

/-- A successful update leaves the sequence of ids untouched. -/
theorem saveUpdate_map_id {todo : Todo} :
    ∀ {l l' : List Todo}, saveUpdate todo l = some l' →
      l'.map (fun x => x.Id) = l.map (fun x => x.Id) := by
  intro l
  induction l with
  | nil => intro l' h; simp [saveUpdate] at h
  | cons x xs ih =>
    intro l' h
    simp only [saveUpdate] at h
    by_cases hx : x.Id = todo.Id
    · rw [if_pos hx] at h
      cases h
      simp [hx]
    · rw [if_neg hx] at h
      rcases Option.map_eq_some'.mp h with ⟨ys, hys, rfl⟩
      simp [ih hys]

/-- The update loop fails exactly when no element carries the id. -/
theorem saveUpdate_eq_none {todo : Todo} :
    ∀ {l : List Todo}, saveUpdate todo l = none ↔ ∀ x ∈ l, x.Id ≠ todo.Id := by
  intro l
  induction l with
  | nil => simp [saveUpdate]
  | cons x xs ih =>
    by_cases hx : x.Id = todo.Id
    · simp [saveUpdate, hx]
    · simp [saveUpdate, hx, ih]

/-- A successful update replaces the element at the first matching
index (`List.findIdx`) and nothing else (`List.set`). -/
theorem saveUpdate_eq_set {todo : Todo} :
    ∀ {l : List Todo}, todo.Id ∈ l.map (fun x => x.Id) →
      saveUpdate todo l =
        some (l.set (l.findIdx (fun x => decide (x.Id = todo.Id))) todo) := by
  intro l
  induction l with
  | nil => intro h; simp at h
  | cons x xs ih =>
    intro h
    by_cases hx : x.Id = todo.Id
    · simp [saveUpdate, hx, List.findIdx_cons]
    · have hmem : todo.Id ∈ xs.map (fun x => x.Id) := by
        rcases List.mem_map.mp h with ⟨y, hy, hyid⟩
        rcases List.mem_cons.mp hy with rfl | hy'
        · exact absurd hyid hx
        · exact List.mem_map.mpr ⟨y, hy', hyid⟩
      simp [saveUpdate, hx, List.findIdx_cons, ih hmem]

/-- Removal returns a sublist: relative order of survivors is kept. -/
theorem deleteFirst_sublist (id : Int) :
    ∀ l : List Todo, (deleteFirst id l).Sublist l := by
  intro l
  induction l with
  | nil => simp [deleteFirst]
  | cons x xs ih =>
    by_cases hx : x.Id = id
    · simp only [deleteFirst, if_pos hx]
      exact (List.Sublist.refl xs).cons x
    · simpa [deleteFirst, hx] using ih.cons₂ x

/-- Removing an id that is nowhere in the list changes nothing. -/
theorem deleteFirst_eq {id : Int} :
    ∀ {l : List Todo}, id ∉ l.map (fun x => x.Id) → deleteFirst id l = l := by
  intro l
  induction l with
  | nil => intro _; rfl
  | cons x xs ih =>
    intro h
    simp only [List.map_cons, List.mem_cons] at h
    push_neg at h
    rw [deleteFirst, if_neg (fun he => h.1 he.symm), ih h.2]

/-- Under unique ids, removal leaves no element with the removed id. -/
theorem deleteFirst_id_not_mem {id : Int} :
    ∀ {l : List Todo}, (l.map (fun x => x.Id)).Nodup →
      ∀ x ∈ deleteFirst id l, x.Id ≠ id := by
  intro l
  induction l with
  | nil => intro _ x hx; simp [deleteFirst] at hx
  | cons y ys ih =>
    intro hnd x hx
    simp only [List.map_cons, List.nodup_cons] at hnd
    by_cases hy : y.Id = id
    · rw [deleteFirst, if_pos hy] at hx
      intro he
      apply hnd.1
      rw [hy, ← he]
      exact List.mem_map.mpr ⟨x, hx, rfl⟩
    · rw [deleteFirst, if_neg hy] at hx
      rcases List.mem_cons.mp hx with rfl | hx'
      · exact hy
      · exact ih hnd.2 x hx'

/-- `setUrlAtId` on a first-match decomposition: the entries before the
match carry different ids, so exactly the matching entry receives the
computed url. -/
theorem setUrlAtId_append_first (r : HttpRequest) (td : Todo) :
    ∀ (l1 l2 : List Todo), (∀ y ∈ l1, y.Id ≠ td.Id) →
      setUrlAtId r td.Id (l1 ++ td :: l2) = l1 ++ attachUrl r td :: l2 := by
  intro l1
  induction l1 with
  | nil =>
    intro l2 _
    simp [setUrlAtId]
  | cons y ys ih =>
    intro l2 h
    have hy : y.Id ≠ td.Id := h y (List.mem_cons_self y ys)
    simp only [List.cons_append, setUrlAtId, if_neg hy]
    exact congrArg (fun zs => y :: zs)
      (ih l2 (fun z hz => h z (List.mem_cons_of_mem y hz)))

/-- First-match decomposition of a list around an id it contains, with
`List.findIdx` landing on the matching element. -/
theorem findIdx_id_decomp {id : Int} :
    ∀ {l : List Todo}, id ∈ l.map (fun x => x.Id) →
      ∃ l1 x l2, l = l1 ++ x :: l2 ∧ (∀ y ∈ l1, y.Id ≠ id) ∧ x.Id = id ∧
        l.findIdx (fun x => decide (x.Id = id)) = l1.length := by
  intro l
  induction l with
  | nil => intro h; simp at h
  | cons x xs ih =>
    intro h
    by_cases hx : x.Id = id
    · exact ⟨[], x, xs, by simp, by simp, hx, by simp [List.findIdx_cons, hx]⟩
    · have hmem : id ∈ xs.map (fun y => y.Id) := by
        rcases List.mem_map.mp h with ⟨y, hy, hyid⟩
        rcases List.mem_cons.mp hy with rfl | hy'
        · exact absurd hyid hx
        · exact List.mem_map.mpr ⟨y, hy', hyid⟩
      rcases ih hmem with ⟨l1, z, l2, rfl, h1, h2, h3⟩
      refine ⟨x :: l1, z, l2, by simp, ?_, h2, ?_⟩
      · intro y hy
        rcases List.mem_cons.mp hy with rfl | hy'
        · exact hx
        · exact h1 y hy'
      · simp [List.findIdx_cons, hx, h3]

/-- `List.set` at the length of the left part replaces the head of the
right part. -/
theorem set_length_append (td : Todo) :
    ∀ (l1 : List Todo) (x : Todo) (l2 : List Todo),
      (l1 ++ x :: l2).set l1.length td = l1 ++ td :: l2 := by
  intro l1
  induction l1 with
  | nil => intro x l2; rfl
  | cons y ys ih =>
    intro x l2
    show y :: (ys ++ x :: l2).set ys.length td = y :: (ys ++ td :: l2)
    rw [ih x l2]

/-! ### The store invariant over reachable states -/

/-- Invariant tying a store state to the ghost log of assigned ids: the
stored ids are (in order) a sublist of the log, the log is strictly
increasing, every logged id is positive and below the counter, and the
counter is at least its initial value 1. -/
def StoreInv (s : MockTodoService) (log : List Int) : Prop :=
  ((s.Todos.map (fun x => x.Id)).Sublist log) ∧
  log.Pairwise (· < ·) ∧
  (∀ i ∈ log, 0 < i ∧ i < s.nextId) ∧
  1 ≤ s.nextId

theorem storeInv_init : StoreInv NewMockTodoService [] := by
  refine ⟨?_, ?_, ?_, ?_⟩ <;> simp [NewMockTodoService]

theorem storeInv_applyOp {s : MockTodoService} {log : List Int} (op : StoreOp)
    (h : StoreInv s log) : StoreInv (applyOp s op) (log ++ opAssigned s op) := by
  obtain ⟨hsub, hpw, hlt, hone⟩ := h
  cases op with
  | save todo =>
    by_cases h0 : todo.Id = 0
    · simp only [applyOp, opAssigned, MockTodoService.Save, if_pos h0]
      refine ⟨?_, ?_, ?_, ?_⟩
      · simpa using hsub.append (List.Sublist.refl [s.nextId])
      · rw [List.pairwise_append]
        refine ⟨hpw, List.pairwise_singleton _ _, ?_⟩
        intro a ha b hb
        rw [List.mem_singleton] at hb
        subst hb
        exact (hlt a ha).2
      · intro i hi
        rcases List.mem_append.mp hi with hi | hi
        · obtain ⟨h1, h2⟩ := hlt i hi
          refine ⟨h1, ?_⟩
          show i < s.nextId + 1
          omega
        · rw [List.mem_singleton] at hi
          subst hi
          refine ⟨?_, ?_⟩
          · omega
          · show s.nextId < s.nextId + 1
            omega
      · show (1 : Int) ≤ s.nextId + 1
        omega
    · simp only [applyOp, opAssigned, MockTodoService.Save, if_neg h0, List.append_nil]
      cases hupd : saveUpdate todo s.Todos with
      | some l =>
        refine ⟨?_, hpw, ?_, ?_⟩
        · show (l.map (fun x : Todo => x.Id)).Sublist log
          rw [saveUpdate_map_id hupd]
          exact hsub
        · show ∀ i ∈ log, 0 < i ∧ i < s.nextId
          exact hlt
        · show (1 : Int) ≤ s.nextId
          exact hone
      | none =>
        exact ⟨hsub, hpw, hlt, hone⟩
  | delete id =>
    simp only [applyOp, opAssigned, MockTodoService.Delete, List.append_nil]
    exact ⟨(List.Sublist.map _ (deleteFirst_sublist id s.Todos)).trans hsub, hpw, hlt, hone⟩
  | deleteAll =>
    simp only [applyOp, opAssigned, MockTodoService.DeleteAll, List.append_nil]
    exact ⟨by simp, hpw, hlt, hone⟩

theorem storeInv_foldl :
    ∀ (ops : List StoreOp) (p : MockTodoService × List Int),
      StoreInv p.1 p.2 →
        StoreInv (ops.foldl stepLog p).1 (ops.foldl stepLog p).2 := by
  intro ops
  induction ops with
  | nil => intro p h; simpa using h
  | cons op rest ih =>
    intro p h
    rw [List.foldl_cons]
    exact ih (stepLog p op) (storeInv_applyOp op h)

theorem storeInv_run (ops : List StoreOp) :
    StoreInv (runOps ops) (assignedIds ops) :=
  storeInv_foldl ops (NewMockTodoService, []) storeInv_init

/-- Every id ever assigned during a run stays below the counter. -/
theorem assigned_lt_nextId (ops : List StoreOp) (i : Int)
    (hi : i ∈ assignedIds ops) : i < (runOps ops).nextId :=
  ((storeInv_run ops).2.2.1 i hi).2

/-- The ids stored in a reachable state, in list order, are strictly
increasing (they are a sublist of the strictly increasing log). -/
theorem run_ids_pairwise (ops : List StoreOp) :
    ((runOps ops).Todos.map (fun x => x.Id)).Pairwise (· < ·) :=
  ((storeInv_run ops).2.1).sublist (storeInv_run ops).1

/-- The ids stored in a reachable state are pairwise distinct. -/
theorem run_ids_nodup (ops : List StoreOp) :
    ((runOps ops).Todos.map (fun x => x.Id)).Nodup :=
  (run_ids_pairwise ops).imp (fun h => ne_of_lt h)

/-- Every id stored in a reachable state is positive. -/
theorem run_ids_pos (ops : List StoreOp) (x : Todo)
    (hx : x ∈ (runOps ops).Todos) : 0 < x.Id := by
  have hmem : x.Id ∈ assignedIds ops :=
    (storeInv_run ops).1.subset (List.mem_map.mpr ⟨x, hx, rfl⟩)
  exact ((storeInv_run ops).2.2.1 x.Id hmem).1

/-! ### Dispatch equations for `todoHandler` -/

theorem save_nonzero_found {t : MockTodoService} {todo : Todo}
    (hne : todo.Id ≠ 0) (hmem : todo.Id ∈ t.Todos.map (fun x => x.Id)) :
    t.Save todo =
      ({ t with Todos :=
          t.Todos.set (t.Todos.findIdx (fun x => decide (x.Id = todo.Id))) todo },
        Except.ok todo) := by
  unfold MockTodoService.Save
  rw [if_neg hne, saveUpdate_eq_set hmem]

theorem save_nonzero_missing {t : MockTodoService} {todo : Todo}
    (hne : todo.Id ≠ 0) (habs : todo.Id ∉ t.Todos.map (fun x => x.Id)) :
    t.Save todo = (t, Except.error "Not Found") := by
  unfold MockTodoService.Save
  rw [if_neg hne,
    saveUpdate_eq_none.mpr (fun x hx he => habs (List.mem_map.mpr ⟨x, hx, he⟩))]

/-- A key accepted by `atoi` is non-empty, hence has positive length. -/
theorem length_ne_zero_of_atoi {key : String} {id : Int}
    (hk : atoi key = some id) : ¬key.length = 0 := by
  intro hlen
  have hdata : key.toList = [] := List.length_eq_zero.mp hlen
  rw [atoi.eq_def, hdata] at hk
  exact Option.noConfusion hk

theorem todoHandler_GET {s : MockTodoService} {r : HttpRequest}
    (hm : r.method = HttpMethod.GET) :
    todoHandler s r = handleGET s r (pathKey r.path) := by
  unfold todoHandler
  rw [hm]

theorem todoHandler_PATCH {s : MockTodoService} {r : HttpRequest}
    (hm : r.method = HttpMethod.PATCH) :
    todoHandler s r = handlePATCH s r (pathKey r.path) := by
  unfold todoHandler
  rw [hm]

theorem todoHandler_DELETE {s : MockTodoService} {r : HttpRequest}
    (hm : r.method = HttpMethod.DELETE) :
    todoHandler s r = handleDELETE s r (pathKey r.path) := by
  unfold todoHandler
  rw [hm]

theorem handleGET_badkey {s : MockTodoService} {r : HttpRequest} {key : String}
    (hlen : ¬key.length = 0) (hk : atoi key = none) :
    handleGET s r key = (⟨400, RespBody.text "Invalid Id\n"⟩, s) := by
  unfold handleGET
  rw [if_neg hlen, hk]

theorem handleGET_missing {s : MockTodoService} {r : HttpRequest} {key : String}
    {id : Int} (hk : atoi key = some id) (hg : s.Get id = none) :
    handleGET s r key = (⟨404, RespBody.text "404 page not found\n"⟩, s) := by
  unfold handleGET
  rw [if_neg (length_ne_zero_of_atoi hk), hk]
  simp only [hg]

theorem handleGET_found {s : MockTodoService} {r : HttpRequest} {key : String}
    {id : Int} {t : Todo} (hk : atoi key = some id) (hg : s.Get id = some t) :
    handleGET s r key =
      (⟨200, RespBody.one (attachUrl r t)⟩,
        { s with Todos := setUrlAtId r id s.Todos }) := by
  unfold handleGET
  rw [if_neg (length_ne_zero_of_atoi hk), hk]
  simp only [hg]

theorem handlePATCH_badkey {s : MockTodoService} {r : HttpRequest} {key : String}
    (hk : atoi key = none) :
    handlePATCH s r key = (⟨400, RespBody.text "Invalid Id\n"⟩, s) := by
  unfold handlePATCH
  rw [hk]

theorem handlePATCH_save_ok {s s1 : MockTodoService} {r : HttpRequest}
    {key : String} {id : Int} {b : PatchBody} {td : Todo}
    (hk : atoi key = some id) (hb : r.body = Except.ok b)
    (hs : s.Save (decodeTodoWithId b id) = (s1, Except.ok td)) :
    handlePATCH s r key =
      (⟨200, RespBody.one (attachUrl r td)⟩,
        { s1 with Todos := setUrlAtId r td.Id s1.Todos }) := by
  unfold handlePATCH
  rw [hk, hb]
  simp only [hs]

theorem handlePATCH_notfound {s s1 : MockTodoService} {r : HttpRequest}
    {key : String} {id : Int} {b : PatchBody}
    (hk : atoi key = some id) (hb : r.body = Except.ok b)
    (hs : s.Save (decodeTodoWithId b id) =
      (s1, Except.error "Not Found")) :
    handlePATCH s r key = (⟨404, RespBody.text "404 page not found\n"⟩, s1) := by
  unfold handlePATCH
  rw [hk, hb]
  simp only [hs]
  rw [if_pos (show strToLower "Not Found" = "not found" from rfl)]

theorem handleDELETE_badkey {s : MockTodoService} {r : HttpRequest} {key : String}
    (hlen : ¬key.length = 0) (hk : atoi key = none) :
    handleDELETE s r key = (⟨400, RespBody.text "Invalid Id\n"⟩, s) := by
  unfold handleDELETE
  rw [if_neg hlen, hk]

theorem handleDELETE_withId {s : MockTodoService} {r : HttpRequest} {key : String}
    {id : Int} (hk : atoi key = some id) :
    handleDELETE s r key = (⟨204, RespBody.empty⟩, (s.Delete id).1) := by
  unfold handleDELETE
  rw [if_neg (length_ne_zero_of_atoi hk), hk]
  rfl

/-! ### The claims -/

/-- C1: in every reachable store state (any finite sequence of `Save`,
`Delete`, and `DeleteAll` operations on the freshly constructed store),
every stored item has a non-zero id, and no two distinct items share an
id (the list of stored ids has no duplicate). -/
theorem c1_reachable_ids_nonzero_unique (ops : List StoreOp) (x : Todo)
    (hx : x ∈ (runOps ops).Todos) :
    x.Id ≠ 0 ∧ ((runOps ops).Todos.map (fun t => t.Id)).Nodup := by
  refine ⟨?_, run_ids_nodup ops⟩
  have := run_ids_pos ops x hx
  omega

theorem c1_reachable_ids_nonzero_unique_witness :
    (⟨1, "a", false, 0, ""⟩ : Todo).Id ≠ 0 ∧
      ((runOps [StoreOp.save ⟨0, "a", false, 0, ""⟩]).Todos.map
        (fun t => t.Id)).Nodup :=
  c1_reachable_ids_nonzero_unique [StoreOp.save ⟨0, "a", false, 0, ""⟩]
    ⟨1, "a", false, 0, ""⟩ (by decide)

/-- C2: on every reachable store state, `Save` of an item with id 0
succeeds, assigns the current counter value, increments the counter,
appends the item at the end of the collection, and the assigned id is
strictly greater than every id the store has ever assigned before
(every entry of the run's assignment log). -/
theorem c2_save_create_appends_fresh_id (ops : List StoreOp) (todo : Todo)
    (i : Int) (h0 : todo.Id = 0) :
    (runOps ops).Save todo =
      ({ nextId := (runOps ops).nextId + 1,
         Todos := (runOps ops).Todos ++
           [{ todo with Id := (runOps ops).nextId }] },
        Except.ok { todo with Id := (runOps ops).nextId }) ∧
      (i ∈ assignedIds ops → i < (runOps ops).nextId) := by
  refine ⟨?_, fun hi => assigned_lt_nextId ops i hi⟩
  unfold MockTodoService.Save
  rw [if_pos h0]

theorem c2_save_create_appends_fresh_id_witness :
    (runOps [StoreOp.save ⟨0, "a", false, 0, ""⟩]).Save ⟨0, "b", true, 2, ""⟩ =
      ({ nextId := (runOps [StoreOp.save ⟨0, "a", false, 0, ""⟩]).nextId + 1,
         Todos := (runOps [StoreOp.save ⟨0, "a", false, 0, ""⟩]).Todos ++
           [{ (⟨0, "b", true, 2, ""⟩ : Todo) with
                Id := (runOps [StoreOp.save ⟨0, "a", false, 0, ""⟩]).nextId }] },
        Except.ok { (⟨0, "b", true, 2, ""⟩ : Todo) with
          Id := (runOps [StoreOp.save ⟨0, "a", false, 0, ""⟩]).nextId }) ∧
      (1 ∈ assignedIds [StoreOp.save ⟨0, "a", false, 0, ""⟩] →
        1 < (runOps [StoreOp.save ⟨0, "a", false, 0, ""⟩]).nextId) :=
  c2_save_create_appends_fresh_id [StoreOp.save ⟨0, "a", false, 0, ""⟩]
    ⟨0, "b", true, 2, ""⟩ 1 rfl

/-- C6: `GetAll` returns the backing list; on every reachable state the
stored ids are, in list order, a sublist of the (strictly increasing)
sequence of ids in assignment order — so "get all" lists items in
insertion order; a create appends at the end; and `Delete` returns a
sublist, preserving the relative order of the remaining items. -/
theorem c6_insertion_order (ops : List StoreOp) (s : MockTodoService)
    (todo : Todo) (id : Int) (h0 : todo.Id = 0) :
    (runOps ops).GetAll.1 = (runOps ops).Todos ∧
    ((runOps ops).Todos.map (fun x => x.Id)).Sublist (assignedIds ops) ∧
    (assignedIds ops).Pairwise (· < ·) ∧
    (s.Save todo).1.Todos = s.Todos ++ [{ todo with Id := s.nextId }] ∧
    ((s.Delete id).1.Todos).Sublist s.Todos := by
  refine ⟨rfl, (storeInv_run ops).1, (storeInv_run ops).2.1, ?_,
    deleteFirst_sublist id s.Todos⟩
  unfold MockTodoService.Save
  rw [if_pos h0]

theorem c6_insertion_order_witness :
    (runOps [StoreOp.save ⟨0, "a", false, 0, ""⟩]).GetAll.1 =
      (runOps [StoreOp.save ⟨0, "a", false, 0, ""⟩]).Todos ∧
    ((runOps [StoreOp.save ⟨0, "a", false, 0, ""⟩]).Todos.map
      (fun x => x.Id)).Sublist (assignedIds [StoreOp.save ⟨0, "a", false, 0, ""⟩]) ∧
    (assignedIds [StoreOp.save ⟨0, "a", false, 0, ""⟩]).Pairwise (· < ·) ∧
    ((NewMockTodoService.Save ⟨0, "c", false, 3, ""⟩).1.Todos =
      NewMockTodoService.Todos ++
        [{ (⟨0, "c", false, 3, ""⟩ : Todo) with Id := NewMockTodoService.nextId }]) ∧
    ((NewMockTodoService.Delete 7).1.Todos).Sublist NewMockTodoService.Todos :=
  c6_insertion_order [StoreOp.save ⟨0, "a", false, 0, ""⟩] NewMockTodoService
    ⟨0, "c", false, 3, ""⟩ 7 rfl

/-- C7: on every reachable store state, `DeleteAll` succeeds and empties
the collection (a following `GetAll` yields `[]`) without resetting the
identity counter, and a create performed right after `DeleteAll` is
assigned an id never assigned to any earlier item of the run. -/
theorem c7_deleteAll_keeps_counter (ops : List StoreOp) (todo : Todo)
    (h0 : todo.Id = 0) :
    (runOps ops).DeleteAll =
      ({ nextId := (runOps ops).nextId, Todos := [] }, Except.ok ()) ∧
    ((runOps ops).DeleteAll).1.GetAll.1 = [] ∧
    (((runOps ops).DeleteAll).1.Save todo).2 =
      Except.ok { todo with Id := (runOps ops).nextId } ∧
    (runOps ops).nextId ∉ assignedIds ops := by
  refine ⟨rfl, rfl, ?_, ?_⟩
  · unfold MockTodoService.DeleteAll MockTodoService.Save
    rw [if_pos h0]
  · intro hmem
    exact absurd (assigned_lt_nextId ops _ hmem) (lt_irrefl _)

theorem c7_deleteAll_keeps_counter_witness :
    (runOps [StoreOp.save ⟨0, "a", false, 0, ""⟩]).DeleteAll =
      ({ nextId := (runOps [StoreOp.save ⟨0, "a", false, 0, ""⟩]).nextId,
         Todos := [] }, Except.ok ()) ∧
    ((runOps [StoreOp.save ⟨0, "a", false, 0, ""⟩]).DeleteAll).1.GetAll.1 = [] ∧
    (((runOps [StoreOp.save ⟨0, "a", false, 0, ""⟩]).DeleteAll).1.Save
        ⟨0, "b", false, 0, ""⟩).2 =
      Except.ok { (⟨0, "b", false, 0, ""⟩ : Todo) with
        Id := (runOps [StoreOp.save ⟨0, "a", false, 0, ""⟩]).nextId } ∧
    (runOps [StoreOp.save ⟨0, "a", false, 0, ""⟩]).nextId ∉
      assignedIds [StoreOp.save ⟨0, "a", false, 0, ""⟩] :=
  c7_deleteAll_keeps_counter [StoreOp.save ⟨0, "a", false, 0, ""⟩]
    ⟨0, "b", false, 0, ""⟩ rfl

/-- C3: `Save` of an item carrying a non-zero id absent from the
collection fails with the error `"Not Found"` and leaves the store
untouched, and the dispatcher surfaces this on PATCH as a 404 (status
404, store unchanged) rather than inserting the item. -/
theorem c3_save_unknown_id_not_found (s : MockTodoService) (id : Int)
    (todo : Todo) (r : HttpRequest) (b : PatchBody)
    (hid : id ≠ 0) (habs : id ∉ s.Todos.map (fun x => x.Id))
    (htodo : todo.Id = id)
    (hm : r.method = HttpMethod.PATCH)
    (hkey : atoi (pathKey r.path) = some id)
    (hb : r.body = Except.ok b) :
    s.Save todo = (s, Except.error "Not Found") ∧
    (todoHandler s r).1.status = 404 ∧
    (todoHandler s r).2 = s := by
  have h1 : todo.Id ≠ 0 := by rw [htodo]; exact hid
  have h2 : todo.Id ∉ s.Todos.map (fun x => x.Id) := by rw [htodo]; exact habs
  have hne : (decodeTodoWithId b id).Id ≠ 0 := hid
  have habs' : (decodeTodoWithId b id).Id ∉ s.Todos.map (fun x => x.Id) := habs
  have hs := save_nonzero_missing hne habs'
  rw [todoHandler_PATCH hm, handlePATCH_notfound hkey hb hs]
  exact ⟨save_nonzero_missing h1 h2, rfl, rfl⟩

theorem c3_save_unknown_id_not_found_witness :
    (NewMockTodoService.Save ⟨5, "a", false, 0, ""⟩ =
      (NewMockTodoService, Except.error "Not Found")) ∧
    (todoHandler NewMockTodoService
      ⟨HttpMethod.PATCH, "/todos/5", Except.ok ⟨some "a", none, none, none⟩,
        "example.com", false⟩).1.status = 404 ∧
    (todoHandler NewMockTodoService
      ⟨HttpMethod.PATCH, "/todos/5", Except.ok ⟨some "a", none, none, none⟩,
        "example.com", false⟩).2 = NewMockTodoService :=
  c3_save_unknown_id_not_found NewMockTodoService 5 ⟨5, "a", false, 0, ""⟩
    ⟨HttpMethod.PATCH, "/todos/5", Except.ok ⟨some "a", none, none, none⟩,
      "example.com", false⟩
    ⟨some "a", none, none, none⟩ (by decide) (by decide) rfl rfl rfl rfl

/-- C4: on every reachable store state and id, `Delete` returns success;
an absent id leaves the store unchanged; a present id is removed (no
remaining item carries it); a second `Delete` of the same id also
succeeds; the survivors keep their relative order; and the dispatcher
answers a DELETE with a parsable id with 204 and no body in all cases. -/
theorem c4_delete_idempotent (ops : List StoreOp) (id : Int) (x : Todo)
    (r : HttpRequest)
    (hm : r.method = HttpMethod.DELETE)
    (hkey : atoi (pathKey r.path) = some id) :
    ((runOps ops).Delete id).2 = Except.ok () ∧
    (id ∉ (runOps ops).Todos.map (fun y => y.Id) →
      ((runOps ops).Delete id).1 = runOps ops) ∧
    (x ∈ ((runOps ops).Delete id).1.Todos → x.Id ≠ id) ∧
    ((((runOps ops).Delete id).1.Delete id).2 = Except.ok ()) ∧
    (((runOps ops).Delete id).1.Todos).Sublist (runOps ops).Todos ∧
    (todoHandler (runOps ops) r).1 = ⟨204, RespBody.empty⟩ := by
  refine ⟨rfl, ?_, ?_, rfl, deleteFirst_sublist id _, ?_⟩
  · intro h
    show ({ runOps ops with
        Todos := deleteFirst id (runOps ops).Todos } : MockTodoService) =
      runOps ops
    rw [deleteFirst_eq h]
  · exact fun hx => deleteFirst_id_not_mem (run_ids_nodup ops) x hx
  · rw [todoHandler_DELETE hm, handleDELETE_withId hkey]

theorem c4_delete_idempotent_witness :
    ((runOps [StoreOp.save ⟨0, "a", false, 0, ""⟩]).Delete 1).2 = Except.ok () ∧
    (1 ∉ (runOps [StoreOp.save ⟨0, "a", false, 0, ""⟩]).Todos.map (fun y => y.Id) →
      ((runOps [StoreOp.save ⟨0, "a", false, 0, ""⟩]).Delete 1).1 =
        runOps [StoreOp.save ⟨0, "a", false, 0, ""⟩]) ∧
    ((⟨1, "a", false, 0, ""⟩ : Todo) ∈
        ((runOps [StoreOp.save ⟨0, "a", false, 0, ""⟩]).Delete 1).1.Todos →
      (⟨1, "a", false, 0, ""⟩ : Todo).Id ≠ 1) ∧
    ((((runOps [StoreOp.save ⟨0, "a", false, 0, ""⟩]).Delete 1).1.Delete 1).2 =
      Except.ok ()) ∧
    (((runOps [StoreOp.save ⟨0, "a", false, 0, ""⟩]).Delete 1).1.Todos).Sublist
      (runOps [StoreOp.save ⟨0, "a", false, 0, ""⟩]).Todos ∧
    (todoHandler (runOps [StoreOp.save ⟨0, "a", false, 0, ""⟩])
      ⟨HttpMethod.DELETE, "/todos/1", Except.error "EOF", "example.com",
        false⟩).1 = ⟨204, RespBody.empty⟩ :=
  c4_delete_idempotent [StoreOp.save ⟨0, "a", false, 0, ""⟩] 1
    ⟨1, "a", false, 0, ""⟩
    ⟨HttpMethod.DELETE, "/todos/1", Except.error "EOF", "example.com", false⟩
    rfl rfl

/-- C5 counterexample: the claim says a successful `Save` with an
existing id replaces only the title, completed, and order fields of the
stored item. Here the stored item and the incoming item agree on id,
title, completed, and order, so under the claim the stored item — its
`Url` field included — would be unchanged; but the code replaces the
struct wholesale, and the stored `Url` becomes the incoming `""` instead
of the previous `"http://example.com/todos/1"`. -/
theorem c5_counterexample :
    ((({ nextId := 2,
         Todos := [⟨1, "walk", false, 0, "http://example.com/todos/1"⟩] } :
        MockTodoService).Save ⟨1, "walk", false, 0, ""⟩).1.Todos.map
      (fun x => x.Url)) = [""] ∧
    ("" : String) ≠ "http://example.com/todos/1" :=
  ⟨rfl, by decide⟩

/-- C5 amended: a successful `Save` of an item carrying an id already in
the collection replaces the stored item *wholesale* (title, completed,
order, and also url — the id is preserved because it equals the incoming
id) at its existing position (`List.set` at the first matching index),
leaving every other item, the collection's length, and the sequence of
ids in list order unchanged. -/
theorem c5_update_in_place (s : MockTodoService) (todo : Todo)
    (hne : todo.Id ≠ 0) (hmem : todo.Id ∈ s.Todos.map (fun x => x.Id)) :
    s.Save todo =
      ({ s with Todos :=
          s.Todos.set (s.Todos.findIdx (fun x => decide (x.Id = todo.Id))) todo },
        Except.ok todo) ∧
    (s.Save todo).1.Todos.map (fun x => x.Id) = s.Todos.map (fun x => x.Id) ∧
    (s.Save todo).1.Todos.length = s.Todos.length := by
  have hs := save_nonzero_found hne hmem
  refine ⟨hs, ?_, ?_⟩
  · rw [hs]
    exact saveUpdate_map_id (saveUpdate_eq_set hmem)
  · rw [hs]
    simp

theorem c5_update_in_place_witness :
    (({ nextId := 3, Todos := [⟨1, "a", false, 0, ""⟩, ⟨2, "b", false, 0, ""⟩] } :
        MockTodoService).Save ⟨2, "c", true, 5, "u"⟩ =
      ({ nextId := 3, Todos :=
          ([⟨1, "a", false, 0, ""⟩, ⟨2, "b", false, 0, ""⟩] : List Todo).set
            (([⟨1, "a", false, 0, ""⟩, ⟨2, "b", false, 0, ""⟩] : List Todo).findIdx
              (fun x => decide (x.Id = (⟨2, "c", true, 5, "u"⟩ : Todo).Id)))
            ⟨2, "c", true, 5, "u"⟩ },
        Except.ok ⟨2, "c", true, 5, "u"⟩)) ∧
    (({ nextId := 3, Todos := [⟨1, "a", false, 0, ""⟩, ⟨2, "b", false, 0, ""⟩] } :
        MockTodoService).Save ⟨2, "c", true, 5, "u"⟩).1.Todos.map
      (fun x => x.Id) =
      ([⟨1, "a", false, 0, ""⟩, ⟨2, "b", false, 0, ""⟩] : List Todo).map
        (fun x => x.Id) ∧
    (({ nextId := 3, Todos := [⟨1, "a", false, 0, ""⟩, ⟨2, "b", false, 0, ""⟩] } :
        MockTodoService).Save ⟨2, "c", true, 5, "u"⟩).1.Todos.length =
      ([⟨1, "a", false, 0, ""⟩, ⟨2, "b", false, 0, ""⟩] : List Todo).length :=
  c5_update_in_place
    { nextId := 3, Todos := [⟨1, "a", false, 0, ""⟩, ⟨2, "b", false, 0, ""⟩] }
    ⟨2, "c", true, 5, "u"⟩ (by decide) (by decide)

/-- C8 counterexample: a GET whose path carries the trailing segment
`-1` does not parse as a *positive* integer, so the claim requires a 400; but
`strconv.Atoi` accepts the negative integer, the 400 branch is skipped,
the lookup misses, and the dispatcher answers 404. -/
theorem c8_counterexample :
    (todoHandler NewMockTodoService
      ⟨HttpMethod.GET, "/todos/-1", Except.error "EOF", "example.com",
        false⟩).1.status = 404 ∧
    (todoHandler NewMockTodoService
      ⟨HttpMethod.GET, "/todos/-1", Except.error "EOF", "example.com",
        false⟩).1.status ≠ 400 :=
  ⟨rfl, by decide⟩

/-- C8 amended: for every GET, PATCH, or DELETE whose path carries a
trailing identity segment, if that segment fails *integer* parsing
(`strconv.Atoi`: optional sign then digits — segments parsing to zero or
negative integers are accepted by this stage and flow on), the
dispatcher responds 400 with body `"Invalid Id"` and the store state is
unchanged. -/
theorem c8_invalid_id_400 (s : MockTodoService) (r : HttpRequest)
    (hm : r.method = HttpMethod.GET ∨ r.method = HttpMethod.PATCH ∨
      r.method = HttpMethod.DELETE)
    (hk : ¬(pathKey r.path).length = 0)
    (ha : atoi (pathKey r.path) = none) :
    todoHandler s r = (⟨400, RespBody.text "Invalid Id\n"⟩, s) := by
  rcases hm with hm | hm | hm
  · rw [todoHandler_GET hm]
    exact handleGET_badkey hk ha
  · rw [todoHandler_PATCH hm]
    exact handlePATCH_badkey ha
  · rw [todoHandler_DELETE hm]
    exact handleDELETE_badkey hk ha

theorem c8_invalid_id_400_witness :
    todoHandler NewMockTodoService
        ⟨HttpMethod.GET, "/todos/abc", Except.error "EOF", "example.com",
          false⟩ =
      (⟨400, RespBody.text "Invalid Id\n"⟩, NewMockTodoService) :=
  c8_invalid_id_400 NewMockTodoService
    ⟨HttpMethod.GET, "/todos/abc", Except.error "EOF", "example.com", false⟩
    (Or.inl rfl) (by decide) rfl

/-- C9 counterexample: the claim says a GET for an absent id responds
404 *with no body*; the code calls `http.NotFound`, which writes the
text body `"404 page not found\n"` — a non-empty body. -/
theorem c9_counterexample :
    todoHandler NewMockTodoService
        ⟨HttpMethod.GET, "/todos/1", Except.error "EOF", "example.com",
          false⟩ =
      (⟨404, RespBody.text "404 page not found\n"⟩, NewMockTodoService) ∧
    RespBody.text "404 page not found\n" ≠ RespBody.empty :=
  ⟨rfl, by decide⟩

/-- C9 amended: for every GET whose trailing segment parses to an id,
if no stored item carries the id the dispatcher responds 404 with the
standard `http.NotFound` text body `"404 page not found"` (not an empty
body), leaving the store unchanged; if an item is present it responds
200 with that single item serialized and its computed url attached —
and, as a side effect of `addUrlToTodos` acting through the pointer
`Get` returned, the computed url is also written into the stored
entry. -/
theorem c9_get_single (s : MockTodoService) (r : HttpRequest) (id : Int)
    (t : Todo) (hm : r.method = HttpMethod.GET)
    (hkey : atoi (pathKey r.path) = some id) :
    (s.Get id = none →
      todoHandler s r = (⟨404, RespBody.text "404 page not found\n"⟩, s)) ∧
    (s.Get id = some t →
      todoHandler s r =
        (⟨200, RespBody.one (attachUrl r t)⟩,
          { s with Todos := setUrlAtId r id s.Todos })) := by
  constructor
  · intro hg
    rw [todoHandler_GET hm]
    exact handleGET_missing hkey hg
  · intro hg
    rw [todoHandler_GET hm]
    exact handleGET_found hkey hg

theorem c9_get_single_witness :
    (({ nextId := 2, Todos := [⟨1, "a", false, 0, ""⟩] } :
        MockTodoService).Get 1 = none →
      todoHandler { nextId := 2, Todos := [⟨1, "a", false, 0, ""⟩] }
          ⟨HttpMethod.GET, "/todos/1", Except.error "EOF", "example.com",
            false⟩ =
        (⟨404, RespBody.text "404 page not found\n"⟩,
          { nextId := 2, Todos := [⟨1, "a", false, 0, ""⟩] })) ∧
    (({ nextId := 2, Todos := [⟨1, "a", false, 0, ""⟩] } :
        MockTodoService).Get 1 = some ⟨1, "a", false, 0, ""⟩ →
      todoHandler { nextId := 2, Todos := [⟨1, "a", false, 0, ""⟩] }
          ⟨HttpMethod.GET, "/todos/1", Except.error "EOF", "example.com",
            false⟩ =
        (⟨200, RespBody.one (attachUrl
            ⟨HttpMethod.GET, "/todos/1", Except.error "EOF", "example.com",
              false⟩ ⟨1, "a", false, 0, ""⟩)⟩,
          { nextId := 2, Todos :=
              setUrlAtId
                ⟨HttpMethod.GET, "/todos/1", Except.error "EOF", "example.com",
                  false⟩ 1 [⟨1, "a", false, 0, ""⟩] })) :=
  c9_get_single { nextId := 2, Todos := [⟨1, "a", false, 0, ""⟩] }
    ⟨HttpMethod.GET, "/todos/1", Except.error "EOF", "example.com", false⟩
    1 ⟨1, "a", false, 0, ""⟩ rfl rfl

/-- C10 counterexample: the claim says a PATCH of an existing item
replaces the stored item wholesale with the decoded body (id forced to
the path id). Here the decoded body with forced id is
`decodeTodoWithId ⟨some "new", none, none, none⟩ 1`, whose url is the
zero value `""`; but after the request the stored item carries the
computed url `"http://example.com/todos/1"` — `addUrlToTodos(r, &todo)`
overwrites the stored url through the pointer `Save` placed in the
slice — so the stored item is not the decoded body. -/
theorem c10_counterexample :
    (todoHandler { nextId := 2, Todos := [⟨1, "old", true, 4, "u"⟩] }
      ⟨HttpMethod.PATCH, "/todos/1", Except.ok ⟨some "new", none, none, none⟩,
        "example.com", false⟩).2.Todos =
      [⟨1, "new", false, 0, "http://example.com/todos/1"⟩] ∧
    (⟨1, "new", false, 0, "http://example.com/todos/1"⟩ : Todo) ≠
      decodeTodoWithId ⟨some "new", none, none, none⟩ 1 :=
  ⟨rfl, by decide⟩

/-- C10 amended: for every PATCH of an existing item (parsable non-zero
path id carried by some stored item, decodable body), the stored item
is replaced wholesale with the decoded body with its id forced to the
path id — any of title, completed, or order absent from the PATCH body
is reset to its zero value (empty title, `completed = false`,
`order = 0`) rather than keeping the previously stored value — except
that the stored url is then overwritten with the computed request url
(`addUrlToTodos` acting through the shared pointer), not the decoded
body's url; the response status is 200. -/
theorem c10_patch_overwrites_absent_fields (s : MockTodoService)
    (r : HttpRequest) (id : Int) (b : PatchBody)
    (hm : r.method = HttpMethod.PATCH)
    (hkey : atoi (pathKey r.path) = some id)
    (hb : r.body = Except.ok b)
    (hid : id ≠ 0)
    (hmem : id ∈ s.Todos.map (fun x => x.Id)) :
    (todoHandler s r).2.Todos =
      s.Todos.set (s.Todos.findIdx (fun x => decide (x.Id = id)))
        ⟨id, b.title.getD "", b.completed.getD false, b.order.getD 0,
          computeUrl r id⟩ ∧
    (todoHandler s r).1.status = 200 := by
  have hne : (decodeTodoWithId b id).Id ≠ 0 := hid
  have hmem' : (decodeTodoWithId b id).Id ∈ s.Todos.map (fun x => x.Id) := hmem
  have hs := save_nonzero_found hne hmem'
  rw [todoHandler_PATCH hm, handlePATCH_save_ok hkey hb hs]
  refine ⟨?_, rfl⟩
  have htid : (decodeTodoWithId b id).Id = id := rfl
  obtain ⟨l1, x, l2, hdec, h1, h2, h3⟩ := findIdx_id_decomp hmem
  have e1 : s.Todos.set
      (s.Todos.findIdx (fun y => decide (y.Id = (decodeTodoWithId b id).Id)))
      (decodeTodoWithId b id) = l1 ++ decodeTodoWithId b id :: l2 := by
    simp only [htid]
    rw [h3, hdec, set_length_append]
  have e2 : setUrlAtId r (decodeTodoWithId b id).Id
      (l1 ++ decodeTodoWithId b id :: l2) =
      l1 ++ attachUrl r (decodeTodoWithId b id) :: l2 := by
    apply setUrlAtId_append_first
    intro y hy
    rw [htid]
    exact h1 y hy
  have e3 : s.Todos.set (s.Todos.findIdx (fun x => decide (x.Id = id)))
      (⟨id, b.title.getD "", b.completed.getD false, b.order.getD 0,
        computeUrl r id⟩ : Todo) =
      l1 ++ (⟨id, b.title.getD "", b.completed.getD false, b.order.getD 0,
        computeUrl r id⟩ : Todo) :: l2 := by
    rw [h3, hdec, set_length_append]
  show setUrlAtId r (decodeTodoWithId b id).Id
      (s.Todos.set
        (s.Todos.findIdx (fun y => decide (y.Id = (decodeTodoWithId b id).Id)))
        (decodeTodoWithId b id)) =
    s.Todos.set (s.Todos.findIdx (fun x => decide (x.Id = id)))
      ⟨id, b.title.getD "", b.completed.getD false, b.order.getD 0,
        computeUrl r id⟩
  rw [e1, e2, e3]
  rfl

theorem c10_patch_overwrites_absent_fields_witness :
    (todoHandler { nextId := 2, Todos := [⟨1, "old", true, 4, "u"⟩] }
      ⟨HttpMethod.PATCH, "/todos/1", Except.ok ⟨some "new", none, none, none⟩,
        "example.com", false⟩).2.Todos =
      ([⟨1, "old", true, 4, "u"⟩] : List Todo).set
        (([⟨1, "old", true, 4, "u"⟩] : List Todo).findIdx
          (fun x => decide (x.Id = 1)))
        ⟨1, (some "new").getD "", (none : Option Bool).getD false,
          (none : Option Int).getD 0,
          computeUrl
            ⟨HttpMethod.PATCH, "/todos/1",
              Except.ok ⟨some "new", none, none, none⟩, "example.com", false⟩
            1⟩ ∧
    (todoHandler { nextId := 2, Todos := [⟨1, "old", true, 4, "u"⟩] }
      ⟨HttpMethod.PATCH, "/todos/1", Except.ok ⟨some "new", none, none, none⟩,
        "example.com", false⟩).1.status = 200 :=
  c10_patch_overwrites_absent_fields
    { nextId := 2, Todos := [⟨1, "old", true, 4, "u"⟩] }
    ⟨HttpMethod.PATCH, "/todos/1", Except.ok ⟨some "new", none, none, none⟩,
      "example.com", false⟩
    1 ⟨some "new", none, none, none⟩ rfl rfl rfl (by decide) (by decide)
